import Mathlib

/-!
Verification of the ifb-crawl pipeline (paginated listing scraper, per-site
detail adapters, dedup/merge, sheet persistence) against its specification.

The Python sources are shallowly embedded: DOM reads, the browser and the
network are modelled as explicit input data; every piece of decision logic
(year classification, pagination stop condition, adapter card matching and
field mapping, dedup filters, sheet read-back) is translated function by
function from `src/main.py`, `src/v7.py`, `src/deduplicate.py` and
`src/sheets.py`.
-/

/-! ## Year classification (`re.search(r'(\d{4})', start)` in `scrape_all_pages`) -/

/-- Models Python's `\d` character class (Unicode decimal digits), restricted to
the scripts that occur in this pipeline's data: ASCII `0-9`, Arabic-Indic
`٠-٩` (U+0660..U+0669) and Extended Arabic-Indic `۰-۹` (U+06F0..U+06F9). -/
def pyIsDigit (c : Char) : Bool :=
  c.isDigit || (0x660 ≤ c.toNat && c.toNat ≤ 0x669) || (0x6F0 ≤ c.toNat && c.toNat ≤ 0x6F9)

/-- `\d{4}` anchored at the head of the character list: four consecutive
digits starting here, returned as the match. -/
def fourDigitsHere : List Char → Option (List Char)
  | a :: b :: c :: d :: _ =>
    if pyIsDigit a && pyIsDigit b && pyIsDigit c && pyIsDigit d then
      some [a, b, c, d]
    else
      none
  | _ => none

/-- `re.search(r'(\d{4})', ·)` on a character list: try each start position
left to right, return the leftmost four-digit run. -/
def searchYearChars : List Char → Option (List Char)
  | [] => none
  | c :: cs =>
    match fourDigitsHere (c :: cs) with
    | some y => some y
    | none => searchYearChars cs

/-- The year extracted from a free-text start date, as in
`re.search(r'(\d{4})', start)` followed by `.group(1)`. -/
def searchYear (s : String) : Option String :=
  (searchYearChars s.data).map List.asString

/-- There is a run of four consecutive digits starting at index `i`. -/
def fourDigitRunAt (l : List Char) (i : ℕ) : Prop :=
  i + 4 ≤ l.length ∧ ∀ k, k < 4 → pyIsDigit (l.getD (i + k) ' ') = true

instance (l : List Char) (i : ℕ) : Decidable (fourDigitRunAt l i) := by
  unfold fourDigitRunAt; infer_instance

/-! ## Data model (`IFBProject` dataclass, `src/main.py` lines 47-80) -/

/-- The `IFBProject` dataclass: eleven listing-populated fields plus the
optional platform-side fields (all `Optional[str] = None` in the source). -/
structure IFBProject where
  row_number : String
  project_name : String
  company_name : String
  national_id : String
  platform_url : String
  status : String
  fund_collection_start_date : String
  project_end_date : String
  description : String
  documents_url : String
  scraped_date : String
  ifb_project_id : Option String := none
  target_amount : Option String := none
  collected_amount : Option String := none
  progress_percentage : Option String := none
  expected_return : Option String := none
  project_duration : Option String := none
  capital_guarantee : Option String := none
  project_type : Option String := none
  project_symbol : Option String := none
  investor_count : Option String := none
  profit_payment_frequency : Option String := none
  start_date_on_platform : Option String := none
  platform_name : Option String := none
  financial_institution : Option String := none
  project_id_on_platform : Option String := none
  thumbnail_url : Option String := none
  applicant_name : Option String := none
deriving DecidableEq, Repr

/-! ## Paginator (`IFBScraper.scrape_all_pages`, `src/main.py` 259-304 /
`src/v7.py` 254-300; the page-classification loop is identical in both) -/

/-- Outcome of scanning one listing page: the rows kept (year `1404`), whether
a classifiable non-`1404` row was seen (`page_has_non_1404`), and the start
dates that drew the invalid-date warning. -/
structure PageOutcome where
  kept : List IFBProject
  hasNon1404 : Bool
  warned : List String
deriving DecidableEq, Repr

/-- One iteration of the per-row loop in `scrape_all_pages`: classify the
start-date year; a non-`1404` year sets the stop flag, a `1404` year appends
the row, an unclassifiable date only logs a warning. -/
def classifyRow (acc : PageOutcome) (proj : IFBProject) : PageOutcome :=
  match searchYear proj.fund_collection_start_date with
  | some y =>
    if y ≠ "1404" then { acc with hasNon1404 := true }
    else { acc with kept := acc.kept ++ [proj] }
  | none => { acc with warned := acc.warned ++ [proj.fund_collection_start_date] }

/-- Scan of one full listing page (the `for proj in page_projects` loop). -/
def processPage (page : List IFBProject) : PageOutcome :=
  page.foldl classifyRow ⟨[], false, []⟩

/-- The rows of a page whose classified year is exactly `1404`. -/
def targetRows (page : List IFBProject) : List IFBProject :=
  page.filter fun p => searchYear p.fund_collection_start_date == some "1404"

/-- Whether some row of the page classifies to a year other than `1404`. -/
def pageHasNon1404 (page : List IFBProject) : Bool :=
  page.any fun p =>
    match searchYear p.fund_collection_start_date with
    | some y => y != "1404"
    | none => false

/-- Start dates on the page that fail to classify (warned about, skipped). -/
def unparseableDates (page : List IFBProject) : List String :=
  (page.filter fun p => (searchYear p.fund_collection_start_date).isNone).map
    fun p => p.fund_collection_start_date

/-- `IFBScraper.scrape_all_pages` over the sequence of pages the site serves
(navigation succeeding; a navigation failure, an environment fault handled by
the surrounding `break`, corresponds to truncating this input list). The loop
halts on an empty page or after a page that set `page_has_non_1404`. -/
def scrapeAllPages : List (List IFBProject) → List IFBProject
  | [] => []
  | page :: rest =>
    if page.isEmpty then []
    else
      let out := processPage page
      if out.hasNon1404 then out.kept
      else out.kept ++ scrapeAllPages rest

/-- A sample listing row with the given start date (used as concrete input). -/
def sampleProj (name d : String) : IFBProject :=
  { row_number := "1", project_name := name, company_name := "co",
    national_id := "id", platform_url := "", status := "",
    fund_collection_start_date := d, project_end_date := "",
    description := "", documents_url := "", scraped_date := "" }

/-! ## Python dictionaries

A Python dict is modelled as an assignment list: later assignments shadow
earlier ones, so lookup takes the last binding. A value is `Option String`
(`none` models Python `None`). -/

/-- A Python dict with string keys and `str | None` values. -/
abbrev PyDict := List (String × Option String)

/-- `d[k]` / `d.get(k)` lookup: `none` when the key is absent, otherwise the
last value assigned to the key. -/
def dictGet (d : PyDict) (k : String) : Option (Option String) :=
  (d.reverse.find? fun kv => kv.1 == k).map Prod.snd

/-- Python `str(·)` on a `str | None` value (`str(None) = "None"`). -/
def pyStr : Option String → String
  | some s => s
  | none => "None"

/-! ## SHA-256 (`hashlib.sha256(...).hexdigest()` in `build_unique_key`) -/

/-- UTF-8 encoding of one character, as a list of byte values. -/
def utf8Char (c : Char) : List ℕ :=
  let n := c.toNat
  if n < 0x80 then [n]
  else if n < 0x800 then
    [0xC0 ||| (n >>> 6), 0x80 ||| (n &&& 0x3F)]
  else if n < 0x10000 then
    [0xE0 ||| (n >>> 12), 0x80 ||| ((n >>> 6) &&& 0x3F), 0x80 ||| (n &&& 0x3F)]
  else
    [0xF0 ||| (n >>> 18), 0x80 ||| ((n >>> 12) &&& 0x3F),
      0x80 ||| ((n >>> 6) &&& 0x3F), 0x80 ||| (n &&& 0x3F)]

/-- `s.encode("utf-8")` as a list of byte values. -/
def utf8Encode (s : String) : List ℕ :=
  (s.data.map utf8Char).flatten

/-- Right rotation of a 32-bit word. -/
def rotr32 (n x : ℕ) : ℕ :=
  ((x >>> n) ||| (x <<< (32 - n))) % 2 ^ 32

/-- The SHA-256 round constants. -/
def shaK : List ℕ :=
  [1116352408, 1899447441, 3049323471, 3921009573, 961987163,
   1508970993, 2453635748, 2870763221, 3624381080, 310598401,
   607225278, 1426881987, 1925078388, 2162078206, 2614888103,
   3248222580, 3835390401, 4022224774, 264347078, 604807628,
   770255983, 1249150122, 1555081692, 1996064986, 2554220882,
   2821834349, 2952996808, 3210313671, 3336571891, 3584528711,
   113926993, 338241895, 666307205, 773529912, 1294757372,
   1396182291, 1695183700, 1986661051, 2177026350, 2456956037,
   2730485921, 2820302411, 3259730800, 3345764771, 3516065817,
   3600352804, 4094571909, 275423344, 430227734, 506948616,
   659060556, 883997877, 958139571, 1322822218, 1537002063,
   1747873779, 1955562222, 2024104815, 2227730452, 2361852424,
   2428436474, 2756734187, 3204031479, 3329325298]

/-- The SHA-256 initial hash state. -/
def shaH0 : List ℕ :=
  [1779033703, 3144134277, 1013904242, 2773480762,
   1359893119, 2600822924, 528734635, 1541459225]

/-- Big-endian byte representation of `v` in `n` bytes. -/
def bytesBE (n v : ℕ) : List ℕ :=
  (List.range n).map fun i => (v >>> (8 * (n - 1 - i))) % 256

/-- SHA-256 message padding: `0x80`, zeros to 56 mod 64, 8-byte bit length. -/
def shaPad (msg : List ℕ) : List ℕ :=
  let len := msg.length
  let z := (64 - (len + 9) % 64) % 64
  msg ++ [0x80] ++ List.replicate z 0 ++ bytesBE 8 (8 * len)

/-- Split a byte list into 64-byte chunks. -/
def chunks64 (l : List ℕ) : List (List ℕ) :=
  if h : l = [] then [] else l.take 64 :: chunks64 (l.drop 64)
termination_by l.length
decreasing_by
  simp only [List.length_drop]
  have : 0 < l.length := List.length_pos.2 h
  omega

/-- The first 16 words of the message schedule, from a 64-byte chunk. -/
def chunkWords (chunk : List ℕ) : List ℕ :=
  (List.range 16).map fun i =>
    chunk.getD (4 * i) 0 * 2 ^ 24 + chunk.getD (4 * i + 1) 0 * 2 ^ 16 +
      chunk.getD (4 * i + 2) 0 * 2 ^ 8 + chunk.getD (4 * i + 3) 0

/-- One message-schedule extension step. -/
def scheduleStep (w : List ℕ) : List ℕ :=
  let s0 := rotr32 7 (w.getD (w.length - 15) 0) ^^^
    rotr32 18 (w.getD (w.length - 15) 0) ^^^ (w.getD (w.length - 15) 0 >>> 3)
  let s1 := rotr32 17 (w.getD (w.length - 2) 0) ^^^
    rotr32 19 (w.getD (w.length - 2) 0) ^^^ (w.getD (w.length - 2) 0 >>> 10)
  w ++ [(w.getD (w.length - 16) 0 + s0 + w.getD (w.length - 7) 0 + s1) % 2 ^ 32]

/-- Iterate the schedule extension `n` times. -/
def buildSchedule (w : List ℕ) : ℕ → List ℕ
  | 0 => w
  | n + 1 => buildSchedule (scheduleStep w) n

/-- One SHA-256 compression round on the eight-word state. -/
def shaRound (hs : List ℕ) (kw : ℕ) : List ℕ :=
  match hs with
  | [a, b, c, d, e, f, g, h] =>
    let s1 := rotr32 6 e ^^^ rotr32 11 e ^^^ rotr32 25 e
    let ch := (e &&& f) ^^^ ((e ^^^ 0xFFFFFFFF) &&& g)
    let t1 := (h + s1 + ch + kw) % 2 ^ 32
    let s0 := rotr32 2 a ^^^ rotr32 13 a ^^^ rotr32 22 a
    let maj := (a &&& b) ^^^ (a &&& c) ^^^ (b &&& c)
    let t2 := (s0 + maj) % 2 ^ 32
    [(t1 + t2) % 2 ^ 32, a, b, c, (d + t1) % 2 ^ 32, e, f, g]
  | _ => hs

/-- Compress one 64-byte chunk into the running hash state. -/
def compressChunk (hs chunk : List ℕ) : List ℕ :=
  let w := buildSchedule (chunkWords chunk) 48
  let final := (shaK.zip w).foldl (fun st p => shaRound st (p.1 + p.2)) hs
  List.zipWith (fun x y => (x + y) % 2 ^ 32) hs final

/-- One hex digit (lowercase). -/
def hexDigit (n : ℕ) : Char :=
  if n < 10 then Char.ofNat (48 + n) else Char.ofNat (87 + n)

/-- A 32-bit word as 8 lowercase hex characters. -/
def word2hex (v : ℕ) : List Char :=
  (List.range 8).map fun i => hexDigit ((v >>> (4 * (7 - i))) % 16)

/-- `hashlib.sha256(bytes).hexdigest()`. -/
def sha256Hex (msg : List ℕ) : String :=
  (((chunks64 (shaPad msg)).foldl compressChunk shaH0).map word2hex).flatten.asString

/-! ## Dedup engine (`src/deduplicate.py`) -/

/-- `filter_new_projects(projects, existing_links)`: keep the rows whose
`p.get("detail_url")` is not in the link set. A missing or `None` URL is
never a member of a set of strings, so such rows are kept. -/
def filter_new_projects (projects : List PyDict) (existing_links : List String) :
    List PyDict :=
  projects.filter fun p =>
    match dictGet p "detail_url" with
    | some (some u) => !existing_links.contains u
    | _ => true

/-- `build_unique_key(row)`: the SHA-256 hex digest of
`f"{row['project_name']}-{row['company_name']}-{row['fund_collection_start_date']}"`.
A missing field raises `KeyError` in the source, modelled as `none`.
The f-string applies `str(·)`, so a `None` value formats as `"None"`. -/
def build_unique_key (row : PyDict) : Option String :=
  match dictGet row "project_name", dictGet row "company_name",
      dictGet row "fund_collection_start_date" with
  | some v1, some v2, some v3 =>
    some (sha256Hex (utf8Encode (pyStr v1 ++ "-" ++ pyStr v2 ++ "-" ++ pyStr v3)))
  | _, _, _ => none

/-- `attach_unique_keys(rows)`: assign `row["unique_key"]` on every row;
`none` models a `KeyError` escaping from `build_unique_key`. -/
def attach_unique_keys (rows : List PyDict) : Option (List PyDict) :=
  rows.mapM fun r => (build_unique_key r).map fun k => r ++ [("unique_key", some k)]

/-- `filter_new_rows(rows, existing_keys)`: keep the rows whose
`row["unique_key"]` is not in the key set; `none` models the `KeyError`
raised when a row has no `unique_key` binding. -/
def filter_new_rows : List PyDict → List String → Option (List PyDict)
  | [], _ => some []
  | r :: rs, ks =>
    match dictGet r "unique_key" with
    | none => none
    | some v =>
      (filter_new_rows rs ks).map fun t =>
        if (match v with | some s => ks.contains s | none => false) then t
        else r :: t

/-- A row carrying only a `unique_key` binding (concrete test input). -/
def rowK (k : String) : PyDict := [("unique_key", some k)]

/-- A candidate row with no `detail_url` binding (concrete test input). -/
def noUrlRow : PyDict := [("project_name", some "X")]

/-! ## Sheet append (`GoogleSheetsHandler.append_new_rows`, `src/main.py`
854-863): row selection against the existing id set -/

/-- `str(item.get('ifb_project_id', ''))`: the default applies only when the
key is absent; a present `None` value formats as the string `"None"`. -/
def pidOf (item : PyDict) : String :=
  match dictGet item "ifb_project_id" with
  | some v => pyStr v
  | none => ""

/-- One iteration of the selection loop of `append_new_rows`: a truthy id
not already in the sheet is appended, a falsy id draws the warning, and a
truthy id already present is dropped. -/
def appendStep (existing : List String) (acc : List PyDict × List PyDict)
    (item : PyDict) : List PyDict × List PyDict :=
  let pid := pidOf item
  if pid != "" && !existing.contains pid then (acc.1 ++ [item], acc.2)
  else if pid == "" then (acc.1, acc.2 ++ [item])
  else acc

/-- The selection loop of `append_new_rows`: first component the rows
appended (truthy id not already in the sheet), second component the rows
that drew the missing-id warning (falsy id). -/
def append_new_rows_select (data : List PyDict) (existing : List String) :
    List PyDict × List PyDict :=
  data.foldl (appendStep existing) ([], [])

/-! ## Destination dispatcher (`PlatformDetailScraper.scrape`, `src/main.py`
323-343, and `IFBScraper._scrape_single_platform`, `src/v7.py` 320-332) -/

/-- Characters allowed in a URL scheme after the leading letter
(`urllib.parse`: letters, digits, `+`, `-`, `.`). -/
def isSchemeChar (c : Char) : Bool :=
  c.isAlphanum || c == '+' || c == '-' || c == '.'

/-- Split at the first `:`, returning the parts before and after it. -/
def takeUntilColon : List Char → Option (List Char × List Char)
  | [] => none
  | c :: cs =>
    if c = ':' then some ([], cs)
    else (takeUntilColon cs).map fun p => (c :: p.1, p.2)

/-- Whether a candidate scheme is valid: nonempty, starts with a letter,
rest scheme characters. -/
def validScheme : List Char → Bool
  | [] => false
  | c :: cs => c.isAlpha && cs.all isSchemeChar

/-- Strip a leading `scheme:` as `urllib.parse.urlsplit` does. -/
def dropScheme (l : List Char) : List Char :=
  match takeUntilColon l with
  | some (before, after) => if validScheme before then after else l
  | none => l

/-- `urlparse(url).netloc`: after stripping the scheme, the text between a
leading `//` and the next `/`, `?` or `#`; empty when there is no `//`. -/
def netlocChars (l : List Char) : List Char :=
  match dropScheme l with
  | '/' :: '/' :: r => r.takeWhile fun c => c != '/' && c != '?' && c != '#'
  | _ => []

/-- `urlparse(url).netloc` on strings. -/
def netlocOf (s : String) : String :=
  (netlocChars s.data).asString

/-- Python `str.lower()` (for the ASCII range relevant to URLs/hosts). -/
def lowerStr (s : String) : String :=
  (s.data.map Char.toLower).asString

/-- Python `pat in text` substring containment on character lists. -/
def hasSub (pat : List Char) : List Char → Bool
  | [] => pat.isEmpty
  | c :: rest => pat.isPrefixOf (c :: rest) || hasSub pat rest

/-- Python `pat in text` substring containment on strings. -/
def strHasSub (pat text : String) : Bool :=
  hasSub pat.data text.data

/-- The extraction strategies of `main.py` (five adapters + generic). -/
inductive Strategy
  | hamafarin | fundocrowd | karencrowd | ifund | zeema | generic
deriving DecidableEq, Repr

/-- The extraction strategies of `v7.py` (three adapters + generic). -/
inductive StrategyV7
  | hamafarin | fundocrowd | karencrowd | generic
deriving DecidableEq, Repr

/-- `main.py` dispatch: `domain = urlparse(url).netloc.lower()`, then the
ordered `if/elif` chain of host-substring tests with a generic fallback. -/
def selectStrategy (url : String) : Strategy :=
  let domain := lowerStr (netlocOf url)
  if strHasSub "hamafarin.ir" domain then .hamafarin
  else if strHasSub "fundocrowd.ir" domain then .fundocrowd
  else if strHasSub "karencrowd.com" domain then .karencrowd
  else if strHasSub "ifund.ir" domain then .ifund
  else if strHasSub "zeema.fund" domain then .zeema
  else .generic

/-- `v7.py` dispatch: `domain = url.lower()` — the WHOLE URL, not the host —
then the ordered host-substring tests with a generic fallback. -/
def selectStrategyV7 (url : String) : StrategyV7 :=
  let domain := lowerStr url
  if strHasSub "hamafarin.ir" domain then .hamafarin
  else if strHasSub "fundocrowd.ir" domain then .fundocrowd
  else if strHasSub "karencrowd.com" domain then .karencrowd
  else .generic

/-- Modelled from the claim's wording, as a refinement reference for the v7
variant: test the host substrings against the lower-cased HOST of the URL. -/
def selectByHostV7 (url : String) : StrategyV7 :=
  let domain := lowerStr (netlocOf url)
  if strHasSub "hamafarin.ir" domain then .hamafarin
  else if strHasSub "fundocrowd.ir" domain then .fundocrowd
  else if strHasSub "karencrowd.com" domain then .karencrowd
  else .generic

/-- First-match dispatch over an ordered pattern table with a default. -/
def firstMatchDispatch {α : Type} (table : List (String × α)) (dflt : α)
    (text : String) : α :=
  match table with
  | [] => dflt
  | (pat, s) :: rest =>
    if strHasSub pat text then s else firstMatchDispatch rest dflt text

/-- The ordered host-pattern table of `main.py`. -/
def mainTable : List (String × Strategy) :=
  [("hamafarin.ir", .hamafarin), ("fundocrowd.ir", .fundocrowd),
    ("karencrowd.com", .karencrowd), ("ifund.ir", .ifund),
    ("zeema.fund", .zeema)]

/-- The ordered host-pattern table of `v7.py`. -/
def v7Table : List (String × StrategyV7) :=
  [("hamafarin.ir", .hamafarin), ("fundocrowd.ir", .fundocrowd),
    ("karencrowd.com", .karencrowd)]

/-! ## Site adapters (`PlatformDetailScraper._scrape_*`, `src/main.py`
346-783; `src/v7.py` 335-601 is textually identical for its three adapters
except that its generic variant omits `platform_name`).

Each card structure holds the results of the adapter's DOM queries on one
card element (`None` when the query finds nothing); the extract functions
translate the assignment logic applied to those query results. Enrichment
dictionaries are assignment lists with last-binding-wins lookup. -/

/-- Python `str.strip()` (whitespace trimming at both ends). -/
def pyStrip (s : String) : String :=
  ((s.data.dropWhile Char.isWhitespace).reverse.dropWhile
    Char.isWhitespace).reverse.asString

/-- One optional dict assignment: `if v is found: d[k] = v`. -/
def entryOpt (k : String) (v : Option String) : List (String × String) :=
  match v with
  | some s => [(k, s)]
  | none => []

/-- Last-binding lookup in an enrichment dict (`d[k]` after assignments). -/
def lookupLast (m : List (String × String)) (k : String) : Option String :=
  (m.reverse.find? fun kv => kv.1 == k).map Prod.snd

/-- Python `d.get(k)` truthiness used in `_scrape_fundocrowd`
(`not details.get('expected_return')`): present and nonempty. -/
def truthyGet (m : List (String × String)) (k : String) : Bool :=
  match lookupLast m k with
  | some v => v != ""
  | none => false

/-- `re.search(lit + r'(\d+)', s)`: leftmost occurrence of the literal
followed by at least one digit; the maximal digit run is the capture. -/
def captureAfterChars (lit : List Char) : List Char → Option (List Char)
  | [] => none
  | c :: rest =>
    (if lit.isPrefixOf (c :: rest) then
      let tail := (c :: rest).drop lit.length
      let ds := tail.takeWhile pyIsDigit
      if ds.isEmpty then none else some ds
    else none).orElse fun _ => captureAfterChars lit rest

/-- `re.search(lit + r'(\d+)', s).group(1)` on strings. -/
def captureAfter (lit s : String) : Option String :=
  (captureAfterChars lit.data s.data).map List.asString

/-- `re.search(r'width:\s*(\d+)%', style)` anchored at the head. -/
def widthHere (l : List Char) : Option (List Char) :=
  if "width:".data.isPrefixOf l then
    let t := (l.drop 6).dropWhile Char.isWhitespace
    let ds := t.takeWhile pyIsDigit
    if !ds.isEmpty && (t.drop ds.length).headD ' ' = '%' then some ds else none
  else none

/-- `re.search(r'width:\s*(\d+)%', style).group(1)`: leftmost match. -/
def captureWidthChars : List Char → Option (List Char)
  | [] => none
  | c :: rest => (widthHere (c :: rest)).orElse fun _ => captureWidthChars rest

/-- Width capture on strings (`_extract_fundocrowd_card`). -/
def captureWidth (s : String) : Option String :=
  (captureWidthChars s.data).map List.asString

/-- Python `text.replace(pat, '')`: remove every occurrence of `pat`. -/
def removeAllChars (pat : List Char) (l : List Char) : List Char :=
  match l with
  | [] => []
  | c :: rest =>
    if h : pat ≠ [] ∧ pat.isPrefixOf (c :: rest) then
      removeAllChars pat ((c :: rest).drop pat.length)
    else
      c :: removeAllChars pat rest
termination_by l.length
decreasing_by
  · simp only [List.length_drop, List.length_cons]
    have : 0 < pat.length := List.length_pos.2 h.1
    omega
  · simp

/-- `text.replace(pat, '')` on strings (`_extract_ifund_card`). -/
def pyRemove (s pat : String) : String :=
  (removeAllChars pat.data s.data).asString

/-- Python `a in b or b in a`: the bidirectional substring containment the
spec names as the card-matching rule. -/
def bidirectionalMatch (a b : String) : Bool :=
  strHasSub a b || strHasSub b a

/-! ### hamafarin adapter -/

/-- The bottom section of a hamafarin card (queries of lines 405-441). -/
structure HamafarinBottom where
  statusText : Option String
  percText : Option String
  grid : Option (List (Option String × Option String))
deriving DecidableEq, Repr

/-- One hamafarin card: results of the queries in
`_extract_hamafarin_card` (title anchor text, plan link href, image source,
financial-institution paragraph text, applicant paragraph text, bottom). -/
structure HamafarinCard where
  title : Option String
  planHref : Option String
  imgSrc : Option String
  finText : Option String
  execText : Option String
  bottom : Option HamafarinBottom
deriving DecidableEq, Repr

/-- One grid item of the hamafarin bottom section: the `if label and value`
guard followed by the label-substring `elif` chain. -/
def hamafarinGridEntry (it : Option String × Option String) :
    List (String × String) :=
  match it.1, it.2 with
  | some rawLbl, some rawVal =>
    let lbl := pyStrip rawLbl
    let val := pyStrip rawVal
    if strHasSub "مبلغ هدف" lbl then [("target_amount", val)]
    else if strHasSub "پیشبینی سود" lbl then [("expected_return", val)]
    else if strHasSub "مدت طرح" lbl then [("project_duration", val)]
    else if strHasSub "تضمین اصل سرمایه" lbl then [("capital_guarantee", val)]
    else if strHasSub "نوع طرح" lbl then [("project_type", val)]
    else if strHasSub "نماد طرح" lbl then [("project_symbol", val)]
    else if strHasSub "تاریخ شروع" lbl then [("start_date_on_platform", val)]
    else if strHasSub "سرمایه گذاران" lbl then
      [("investor_count", (val.data.filter pyIsDigit).asString)]
    else if strHasSub "تواتر پرداخت سود" lbl then
      [("profit_payment_frequency", val)]
    else []
  | _, _ => []

/-- `_extract_hamafarin_card`. -/
def hamafarinExtract (c : HamafarinCard) : List (String × String) :=
  entryOpt "title_on_platform" (c.title.map pyStrip) ++
  entryOpt "project_id_on_platform"
    (c.planHref.bind fun h => captureAfter "/businessplans/" h) ++
  entryOpt "thumbnail_url" c.imgSrc ++
  entryOpt "financial_institution" (c.finText.map pyStrip) ++
  entryOpt "applicant_name" (c.execText.map pyStrip) ++
  (match c.bottom with
  | none => []
  | some b =>
    entryOpt "status_on_platform" (b.statusText.map pyStrip) ++
    (match b.percText with
    | some t => if strHasSub "%" t then [("progress_percentage", pyStrip t)] else []
    | none => []) ++
    (match b.grid with
    | none => []
    | some items => (items.map hamafarinGridEntry).flatten))

/-- The card-matching test of `_scrape_hamafarin`: skip cards without a
title element, otherwise bidirectional containment of the stripped card
title against the (already stripped) target. -/
def hamafarinPred (target : String) (c : HamafarinCard) : Bool :=
  match c.title with
  | some t => strHasSub target (pyStrip t) || strHasSub (pyStrip t) target
  | none => false

/-- The matching loop of `_scrape_hamafarin`: extract the first matching
card in document order and break; no match leaves `details = {}`. -/
def scrapeHamafarinCards (projectName : String) (cards : List HamafarinCard) :
    List (String × String) :=
  match cards.find? (hamafarinPred (pyStrip projectName)) with
  | some c => hamafarinExtract c
  | none => []

/-! ### fundocrowd adapter -/

/-- One fundocrowd card: results of the queries in
`_extract_fundocrowd_card` plus the detail page's payment text (what the
secondary fetch of `_scrape_fundocrowd_details` would read). -/
structure FundocrowdCard where
  title : Option String
  imgSrc : Option String
  companyText : Option String
  targetSpans : Option (List String)
  progressStyle : Option String
  durationCols : Option (Option String × Option String)
  detailHref : Option String
  detailPayment : Option String
deriving DecidableEq, Repr

/-- `_extract_fundocrowd_card`. -/
def fundocrowdExtract (c : FundocrowdCard) : List (String × String) :=
  entryOpt "title_on_platform" (c.title.map pyStrip) ++
  entryOpt "thumbnail_url" c.imgSrc ++
  entryOpt "applicant_name" c.companyText ++
  (match c.targetSpans with
  | some (s0 :: s1 :: _) =>
    [("target_amount", pyStrip s0), ("progress_percentage", pyStrip s1)]
  | _ => []) ++
  entryOpt "progress_width" (c.progressStyle.bind captureWidth) ++
  (match c.durationCols with
  | some cols =>
    entryOpt "project_duration" (cols.1.map pyStrip) ++
    entryOpt "expected_return" (cols.2.map pyStrip)
  | none => []) ++
  entryOpt "details_page_url"
    (c.detailHref.map fun h => "https://fundocrowd.ir" ++ h)

/-- `_scrape_fundocrowd_details`: empty without a detail link, otherwise
the payment paragraph when found. -/
def fundocrowdDetailsExtract (c : FundocrowdCard) : List (String × String) :=
  match c.detailHref with
  | none => []
  | some _ => entryOpt "profit_payment_frequency" (c.detailPayment.map pyStrip)

/-- The card-matching test of `_scrape_fundocrowd` (bidirectional). -/
def fundocrowdPred (target : String) (c : FundocrowdCard) : Bool :=
  match c.title with
  | some t => strHasSub target (pyStrip t) || strHasSub (pyStrip t) target
  | none => false

/-- The matching loop of `_scrape_fundocrowd`, with the conditional
secondary-page `details.update(...)` when the first pass left
`expected_return` or `project_duration` falsy. -/
def scrapeFundocrowdCards (projectName : String)
    (cards : List FundocrowdCard) : List (String × String) :=
  match cards.find? (fundocrowdPred (pyStrip projectName)) with
  | some c =>
    let details := fundocrowdExtract c
    if !truthyGet details "expected_return" ||
        !truthyGet details "project_duration" then
      details ++ fundocrowdDetailsExtract c
    else details
  | none => []

/-! ### karencrowd adapter -/

/-- One karencrowd card: results of the queries in
`_extract_karencrowd_card`. -/
structure KarencrowdCard where
  title : Option String
  planHref : Option String
  imgSrc : Option String
  targetGrid : Option (List (Option String × Option String))
deriving DecidableEq, Repr

/-- One column of the karencrowd target grid: the `if label and value`
guard followed by the label `elif` chain. -/
def karencrowdColEntry (it : Option String × Option String) :
    List (String × String) :=
  match it.1, it.2 with
  | some rawLbl, some rawVal =>
    let lbl := pyStrip rawLbl
    let val := pyStrip rawVal
    if strHasSub "مبلغ هدف" lbl then [("target_amount", val)]
    else if strHasSub "مدت طرح" lbl then [("project_duration", val)]
    else if strHasSub "پیش بینی سود" lbl then [("expected_return", val)]
    else []
  | _, _ => []

/-- `_extract_karencrowd_card`. -/
def karencrowdExtract (c : KarencrowdCard) : List (String × String) :=
  entryOpt "title_on_platform" (c.title.map pyStrip) ++
  entryOpt "project_id_on_platform"
    (c.planHref.bind fun h => captureAfter "/plans/" h) ++
  entryOpt "thumbnail_url" c.imgSrc ++
  (match c.targetGrid with
  | none => []
  | some cols => (cols.map karencrowdColEntry).flatten)

/-- The card-matching test of `_scrape_karencrowd` (bidirectional). -/
def karencrowdPred (target : String) (c : KarencrowdCard) : Bool :=
  match c.title with
  | some t => strHasSub target (pyStrip t) || strHasSub (pyStrip t) target
  | none => false

/-- The matching loop of `_scrape_karencrowd`. -/
def scrapeKarencrowdCards (projectName : String)
    (cards : List KarencrowdCard) : List (String × String) :=
  match cards.find? (karencrowdPred (pyStrip projectName)) with
  | some c => karencrowdExtract c
  | none => []

/-! ### ifund adapter -/

/-- One ifund card: results of the queries in `_extract_ifund_card`
(`amountSpans` are the spans of the first amount row when present,
`items` the flattened texts of the info list). -/
structure IfundCard where
  title : Option String
  profitSpan : Option String
  symbolText : Option String
  amountSpans : Option (List String)
  items : List String
deriving DecidableEq, Repr

/-- One info-list item of an ifund card: the text-substring `elif` chain
(the annual-profit branch deliberately assigns nothing). -/
def ifundItemEntry (text : String) : List (String × String) :=
  if strHasSub "سکوی تامین مالی جمعی آیفاند" text then
    [("platform_name", "آی‌فاند")]
  else if strHasSub "نام متقاضی :" text then
    [("applicant_name", pyStrip (pyRemove text "نام متقاضی :"))]
  else if strHasSub "نهاد مالی :" text then
    [("financial_institution", pyStrip (pyRemove text "نهاد مالی :"))]
  else if strHasSub "مدت طرح :" text then
    [("project_duration", pyStrip (pyRemove text "مدت طرح :"))]
  else if strHasSub "نماد طرح :" text then
    [("project_symbol", pyStrip (pyRemove text "نماد طرح :"))]
  else if strHasSub "نوع تامین مالی :" text then
    [("project_type", pyStrip (pyRemove text "نوع تامین مالی :"))]
  else if strHasSub "سود پیش بینی شده سالانه:" text then []
  else if strHasSub "مواعد پرداخت سود پیش بینی شده :" text then
    [("profit_payment_frequency",
      pyStrip (pyRemove text "مواعد پرداخت سود پیش بینی شده :"))]
  else if strHasSub "بدون تضمین سود" text then [("capital_guarantee", text)]
  else []

/-- `_extract_ifund_card`. -/
def ifundExtract (c : IfundCard) : List (String × String) :=
  entryOpt "title_on_platform" (c.title.map pyStrip) ++
  entryOpt "expected_return" (c.profitSpan.map pyStrip) ++
  entryOpt "project_symbol" (c.symbolText.map pyStrip) ++
  (match c.amountSpans with
  | some (s0 :: s1 :: _) =>
    [("collected_amount", pyStrip s0), ("target_amount", pyStrip s1)]
  | _ => []) ++
  (c.items.map ifundItemEntry).flatten

/-- The card-matching test of `_scrape_ifund` (bidirectional). -/
def ifundPred (target : String) (c : IfundCard) : Bool :=
  match c.title with
  | some t => strHasSub target (pyStrip t) || strHasSub (pyStrip t) target
  | none => false

/-- The matching loop of `_scrape_ifund`. -/
def scrapeIfundCards (projectName : String) (cards : List IfundCard) :
    List (String × String) :=
  match cards.find? (ifundPred (pyStrip projectName)) with
  | some c => ifundExtract c
  | none => []

/-! ### zeema adapter -/

/-- One zeema card: results of the queries in `_extract_zeema_card`
(span-text lists for the stacked rows, when the row element is found). -/
structure ZeemaCard where
  title : Option String
  imgSrc : Option String
  companyText : Option String
  reqDivs : List (List String)
  durationSpans : Option (List String)
  finSpans : Option (List String)
  guarText : Option String
  collectedSpans : Option (List String)
  progressVal : Option String
  investorSpans : Option (List String)
deriving DecidableEq, Repr

/-- One requirement row of a zeema card: the `if len(spans) >= 2` guard
followed by the label `elif` chain. -/
def zeemaReqEntry (spans : List String) : List (String × String) :=
  match spans with
  | s0 :: s1 :: _ =>
    let label := pyStrip s0
    let value := pyStrip s1
    if strHasSub "سرمایه مورد نیاز" label then [("target_amount", value)]
    else if strHasSub "پیش بینی سود پروژه" label then
      [("expected_return", value)]
    else []
  | _ => []

/-- The `spans[1]` read used by several zeema rows
(`if len(spans) >= 2: d[...] = spans[1].text.strip()`). -/
def secondSpan (spans : Option (List String)) : Option String :=
  match spans with
  | some (_ :: s1 :: _) => some (pyStrip s1)
  | _ => none

/-- `_extract_zeema_card`. -/
def zeemaExtract (c : ZeemaCard) : List (String × String) :=
  entryOpt "title_on_platform" (c.title.map pyStrip) ++
  entryOpt "thumbnail_url" c.imgSrc ++
  entryOpt "applicant_name" (c.companyText.map pyStrip) ++
  (c.reqDivs.map zeemaReqEntry).flatten ++
  entryOpt "project_duration" (secondSpan c.durationSpans) ++
  entryOpt "financial_institution" (secondSpan c.finSpans) ++
  entryOpt "capital_guarantee" (c.guarText.map pyStrip) ++
  entryOpt "collected_amount" (secondSpan c.collectedSpans) ++
  entryOpt "progress_percentage" c.progressVal ++
  entryOpt "investor_count" (secondSpan c.investorSpans)

/-- The card-matching test of `_scrape_zeema`: ONE-directional — the card
matches only when its (unstripped) title text contains the target
(`if title_span and target in title_span.text`). -/
def zeemaPred (target : String) (c : ZeemaCard) : Bool :=
  match c.title with
  | some t => strHasSub target t
  | none => false

/-- The matching loop of `_scrape_zeema`. -/
def scrapeZeemaCards (projectName : String) (cards : List ZeemaCard) :
    List (String × String) :=
  match cards.find? (zeemaPred (pyStrip projectName)) with
  | some c => zeemaExtract c
  | none => []

/-! ### generic adapter -/

/-- The generic adapter's per-field first-matching regex captures over the
page's flattened text (the regex engine is an external capability; these
are its group-1 results, `None` when no alternative matched). -/
structure GenericMatches where
  target_amount_m : Option String
  expected_return_m : Option String
  project_duration_m : Option String
  investor_count_m : Option String
  applicant_m : Option String
deriving DecidableEq, Repr

/-- `_scrape_generic` of `main.py`: field captures in pattern-table order,
then the stripped applicant capture, then `platform_name` from the URL's
host (always assigned). -/
def genericExtract (g : GenericMatches) (url : String) :
    List (String × String) :=
  entryOpt "target_amount" g.target_amount_m ++
  entryOpt "expected_return" g.expected_return_m ++
  entryOpt "project_duration" g.project_duration_m ++
  entryOpt "investor_count" g.investor_count_m ++
  entryOpt "applicant_name" (g.applicant_m.map pyStrip) ++
  [("platform_name", netlocOf url)]

/-- `_scrape_generic` of `v7.py`: as in `main.py` but with no
`platform_name` assignment. -/
def genericExtractV7 (g : GenericMatches) : List (String × String) :=
  entryOpt "target_amount" g.target_amount_m ++
  entryOpt "expected_return" g.expected_return_m ++
  entryOpt "project_duration" g.project_duration_m ++
  entryOpt "investor_count" g.investor_count_m ++
  entryOpt "applicant_name" (g.applicant_m.map pyStrip)

/-! ### enrichment merge (`combined = proj.to_dict(); combined.update(details)`,
`src/main.py` 913-923 and `src/v7.py` 304-318) -/

/-- `asdict(project)` in dataclass field order. -/
def projToDict (p : IFBProject) : PyDict :=
  [("row_number", some p.row_number), ("project_name", some p.project_name),
   ("company_name", some p.company_name), ("national_id", some p.national_id),
   ("platform_url", some p.platform_url), ("status", some p.status),
   ("fund_collection_start_date", some p.fund_collection_start_date),
   ("project_end_date", some p.project_end_date),
   ("description", some p.description),
   ("documents_url", some p.documents_url),
   ("scraped_date", some p.scraped_date),
   ("ifb_project_id", p.ifb_project_id), ("target_amount", p.target_amount),
   ("collected_amount", p.collected_amount),
   ("progress_percentage", p.progress_percentage),
   ("expected_return", p.expected_return),
   ("project_duration", p.project_duration),
   ("capital_guarantee", p.capital_guarantee),
   ("project_type", p.project_type), ("project_symbol", p.project_symbol),
   ("investor_count", p.investor_count),
   ("profit_payment_frequency", p.profit_payment_frequency),
   ("start_date_on_platform", p.start_date_on_platform),
   ("platform_name", p.platform_name),
   ("financial_institution", p.financial_institution),
   ("project_id_on_platform", p.project_id_on_platform),
   ("thumbnail_url", p.thumbnail_url), ("applicant_name", p.applicant_name)]

/-- Field read on `combined` after `combined.update(details)`: the
enrichment value when assigned, otherwise the listing value. -/
def mergeUpdate (base : PyDict) (extra : List (String × String))
    (k : String) : Option (Option String) :=
  match lookupLast extra k with
  | some v => some (some v)
  | none => dictGet base k

/-- The eleven field names populated from the listing source. -/
def listingKeys : List String :=
  ["row_number", "project_name", "company_name", "national_id",
   "platform_url", "status", "fund_collection_start_date",
   "project_end_date", "description", "documents_url", "scraped_date"]

/-- Every dictionary key any adapter can assign. -/
def enrichKeys : List String :=
  ["title_on_platform", "project_id_on_platform", "thumbnail_url",
   "financial_institution", "applicant_name", "status_on_platform",
   "progress_percentage", "target_amount", "expected_return",
   "project_duration", "capital_guarantee", "project_type",
   "project_symbol", "start_date_on_platform", "investor_count",
   "profit_payment_frequency", "collected_amount", "progress_width",
   "details_page_url", "platform_name"]

/-- The enrichment mappings an adapter run can hand to the merge: the
result of one of the six scrape strategies, or the empty dict left by the
adapters' exception handlers. -/
def AdapterOutput (d : List (String × String)) : Prop :=
  (∃ n cs, d = scrapeHamafarinCards n cs) ∨
  (∃ n cs, d = scrapeFundocrowdCards n cs) ∨
  (∃ n cs, d = scrapeKarencrowdCards n cs) ∨
  (∃ n cs, d = scrapeIfundCards n cs) ∨
  (∃ n cs, d = scrapeZeemaCards n cs) ∨
  (∃ g url, d = genericExtract g url) ∨
  (∃ g, d = genericExtractV7 g) ∨
  d = []

/-- A concrete zeema card whose title is a strict substring of the record
title (counterexample input for the matching rule). -/
def zeemaCardAlpha : ZeemaCard :=
  { title := some "Alpha", imgSrc := none, companyText := none,
    reqDivs := [], durationSpans := none, finSpans := none,
    guarText := none, collectedSpans := none, progressVal := none,
    investorSpans := none }

/-- A hamafarin card with only a title (concrete matching input). -/
def hCardTitled (t : String) : HamafarinCard :=
  { title := some t, planHref := none, imgSrc := none, finText := none,
    execText := none, bottom := none }

/-! ## Record extractor (`IFBScraper._extract_current_page_projects`,
`src/main.py` 191-257 / `src/v7.py` 188-252) -/

/-- An anchor or icon element: its `href` and `onclick` attributes. -/
structure TagA where
  href : Option String
  onclick : Option String
deriving DecidableEq, Repr

/-- One `<td>` cell: its text, its first `<a>`, and its first
`icon-folder` icon. -/
structure TCell where
  text : String
  anchor : Option TagA
  iconFolder : Option TagA
deriving DecidableEq, Repr

/-- A cell value for out-of-range reads (never reached on rows that pass
the column-count guard). -/
def defaultCell : TCell := ⟨"", none, none⟩

/-- The ASCII apostrophe character. -/
def chr39 : Char := Char.ofNat 39

/-- `re.search(fname + r"\\('(\\d+)'\\)", s)` anchored at the head:
the literal `fname('`, a nonempty digit run, then `')`. -/
def callIdHere (fname l : List Char) : Option (List Char) :=
  if (fname ++ ('(' :: [chr39])).isPrefixOf l then
    let t := l.drop (fname.length + 2)
    let ds := t.takeWhile pyIsDigit
    if !ds.isEmpty && (chr39 :: [')']).isPrefixOf (t.drop ds.length) then
      some ds
    else none
  else none

/-- Leftmost match of the call-id pattern. -/
def callIdChars (fname : List Char) : List Char → Option (List Char)
  | [] => none
  | c :: rest => (callIdHere fname (c :: rest)).orElse fun _ => callIdChars fname rest

/-- `re.search(fname + r"\\('(\\d+)'\\)", s).group(1)` on strings, as in the
`showDesc` and `GoToDocuments` onclick parses. -/
def extractCallId (fname s : String) : Option String :=
  (callIdChars fname.data s.data).map List.asString

/-- The base listing URL (`IFB_MAIN_URL`). -/
def IFB_MAIN_URL : String :=
  "https://www.ifb.ir/Finstars/AllCrowdFundingProject.aspx"

/-- Outcome of processing one data row: skipped short row (no log),
exception caught with a logged error, or an extracted record. -/
inductive RowResult where
  | short
  | errored
  | ok (p : IFBProject)
deriving DecidableEq, Repr

/-- Build the record from a full row (`now` the capture timestamp, `descOf`
the modal-description reader, which never raises). -/
def mkRowProject (now : String) (descOf : String -> String)
    (cells : List TCell) (purl : String) : IFBProject :=
  let descId := match (cells.getD 8 defaultCell).anchor with
    | some a =>
      match a.onclick with
      | some oc => extractCallId "showDesc" oc
      | none => none
    | none => none
  let ifbId := match descId with
    | some i => some i
    | none =>
      match (cells.getD 9 defaultCell).iconFolder with
      | some d =>
        match d.onclick with
        | some oc => extractCallId "GoToDocuments" oc
        | none => none
      | none => none
  { row_number := pyStrip (cells.getD 0 defaultCell).text,
    project_name := pyStrip (cells.getD 1 defaultCell).text,
    company_name := pyStrip (cells.getD 2 defaultCell).text,
    national_id := pyStrip (cells.getD 3 defaultCell).text,
    platform_url := purl,
    status := pyStrip (cells.getD 5 defaultCell).text,
    fund_collection_start_date := pyStrip (cells.getD 6 defaultCell).text,
    project_end_date := pyStrip (cells.getD 7 defaultCell).text,
    description := match descId with
      | some i => descOf i
      | none => "توضیحات در دسترس نیست",
    documents_url := match ifbId with
      | some i => IFB_MAIN_URL ++ "?doc_id=" ++ i
      | none => "",
    scraped_date := now,
    ifb_project_id := ifbId }

/-- One iteration of the row loop: rows under 10 cells fall through the
`if len(cells) >= 10` guard with no log; `platform_link['href']` on an
anchor without `href` raises `KeyError`, caught by the per-row handler
with a logged error. -/
def processRow (now : String) (descOf : String -> String)
    (cells : List TCell) : RowResult :=
  if cells.length >= 10 then
    match (cells.getD 4 defaultCell).anchor with
    | some a =>
      match a.href with
      | some purl => .ok (mkRowProject now descOf cells purl)
      | none => .errored
    | none => .ok (mkRowProject now descOf cells "")
  else .short

/-- Accumulate one row into (records so far, per-row errors logged). -/
def extractStep (now : String) (descOf : String -> String)
    (acc : List IFBProject × Nat) (cells : List TCell) :
    List IFBProject × Nat :=
  match processRow now descOf cells with
  | .ok p => (acc.1 ++ [p], acc.2)
  | .errored => (acc.1, acc.2 + 1)
  | .short => acc

/-- The row loop of `_extract_current_page_projects` over the data rows
(the header row already excluded by `rows[1:]`): the extracted records in
order and the number of row-level errors logged. -/
def extractRowsAcc (now : String) (descOf : String -> String)
    (rows : List (List TCell)) : List IFBProject × Nat :=
  rows.foldl (extractStep now descOf) ([], 0)

/-- The record a row contributes, when it contributes one. -/
def rowOk (now : String) (descOf : String -> String)
    (cells : List TCell) : Option IFBProject :=
  match processRow now descOf cells with
  | .ok p => some p
  | _ => none

/-- A concrete 3-cell (short) data row. -/
def shortRow : List TCell := [⟨"1", none, none⟩, ⟨"p", none, none⟩, ⟨"c", none, none⟩]

/-! ## Sheet read-back (`GoogleSheetsHandler.get_existing_ids`,
`src/main.py` 814-835, and `GoogleSheetsRepository`, `src/sheets.py`) -/

/-- A worksheet as its grid of cell strings (first row the headers). -/
structure Worksheet where
  rows : List (List String)
deriving DecidableEq, Repr

/-- The remote spreadsheet backend: spreadsheets by name (for
`client.open`) or by key (for `client.open_by_key`). -/
abbrev SheetsBackend := List (String × Worksheet)

/-- Look a spreadsheet up in the backend. -/
def lookupSheet (bk : SheetsBackend) (name : String) : Option Worksheet :=
  (bk.find? fun kv => kv.1 == name).map Prod.snd

/-- `GoogleSheetsHandler.get_existing_ids`: a missing spreadsheet
(`gspread.SpreadsheetNotFound`) is caught and yields the empty set; a
missing `ifb_project_id` header column yields the empty set with a warning;
otherwise the column values below the header row. -/
def get_existing_ids (bk : SheetsBackend) (sheetName : String) :
    List String :=
  match lookupSheet bk sheetName with
  | none => []
  | some ws =>
    let headers := ws.rows.headD []
    match headers.indexOf? "ifb_project_id" with
    | none => []
    | some i => (ws.rows.drop 1).map fun r => r.getD i ""

/-- `GoogleSheetsRepository` after its constructor ran: the id and the
opened first worksheet. -/
structure GoogleSheetsRepository where
  spreadsheet_id : String
  sheet : Worksheet
deriving DecidableEq, Repr

/-- The repository constructor's `client.open_by_key(spreadsheet_id).sheet1`:
raises `SpreadsheetNotFound` when the spreadsheet does not exist. -/
def openByKey (bk : SheetsBackend) (key : String) :
    Except String GoogleSheetsRepository :=
  match lookupSheet bk key with
  | some ws => .ok ⟨key, ws⟩
  | none => .error "SpreadsheetNotFound"

/-- `sheet.get_all_records()`: one dict per data row, keyed by the header
row. -/
def getAllRecords (ws : Worksheet) : List PyDict :=
  match ws.rows with
  | [] => []
  | headers :: rest => rest.map fun r => headers.zip (r.map some)

/-- `GoogleSheetsRepository.fetch_existing_keys`: the truthy `unique_key`
values of all records (no exception handling of its own). -/
def fetch_existing_keys (repo : GoogleSheetsRepository) : List String :=
  (getAllRecords repo.sheet).filterMap fun row =>
    match dictGet row "unique_key" with
    | some (some v) => if v != "" then some v else none
    | _ => none

/-- A 10-cell data row whose platform anchor lacks `href` (concrete
errored-row input: `platform_link['href']` raises `KeyError`). -/
def badAnchorRow : List TCell :=
  [defaultCell, defaultCell, defaultCell, defaultCell,
    ⟨"", some ⟨none, none⟩, none⟩, defaultCell, defaultCell, defaultCell,
    defaultCell, defaultCell]

/-! ## Theorems -/

theorem fourDigitsHere_isSome_iff (l : List Char) :
    (fourDigitsHere l).isSome = true ↔ fourDigitRunAt l 0 := by
  match l with
  | [] => simp [fourDigitsHere, fourDigitRunAt]
  | [a] => simp [fourDigitsHere, fourDigitRunAt]
  | [a, b] => simp [fourDigitsHere, fourDigitRunAt]
  | [a, b, c] => simp [fourDigitsHere, fourDigitRunAt]
  | a :: b :: c :: d :: t =>
    simp only [fourDigitsHere, fourDigitRunAt, List.length_cons, Nat.zero_add]
    constructor
    · intro h
      have hd : (pyIsDigit a && pyIsDigit b && pyIsDigit c && pyIsDigit d) = true := by
        by_contra hc
        rw [if_neg (by simpa using hc)] at h
        simp at h
      simp only [Bool.and_eq_true] at hd
      refine ⟨by omega, fun k hk => ?_⟩
      interval_cases k <;> simp [hd.1.1.1, hd.1.1.2, hd.1.2, hd.2, List.getD]
    · rintro ⟨-, hdig⟩
      have h0 := hdig 0 (by omega)
      have h1 := hdig 1 (by omega)
      have h2 := hdig 2 (by omega)
      have h3 := hdig 3 (by omega)
      simp [List.getD] at h0 h1 h2 h3
      simp [h0, h1, h2, h3]

theorem fourDigitsHere_eq_take (l : List Char) (y : List Char)
    (h : fourDigitsHere l = some y) : y = l.take 4 := by
  match l with
  | [] => simp [fourDigitsHere] at h
  | [a] => simp [fourDigitsHere] at h
  | [a, b] => simp [fourDigitsHere] at h
  | [a, b, c] => simp [fourDigitsHere] at h
  | a :: b :: c :: d :: t =>
    simp only [fourDigitsHere] at h
    split at h
    · cases h; simp
    · cases h

theorem fourDigitRunAt_succ (a : Char) (l : List Char) (i : ℕ) :
    fourDigitRunAt (a :: l) (i + 1) ↔ fourDigitRunAt l i := by
  unfold fourDigitRunAt
  constructor
  · rintro ⟨h1, h2⟩
    refine ⟨by simp at h1; omega, fun k hk => ?_⟩
    have := h2 k hk
    rwa [show i + 1 + k = (i + k) + 1 by omega, List.getD_cons_succ] at this
  · rintro ⟨h1, h2⟩
    refine ⟨by simp; omega, fun k hk => ?_⟩
    rw [show i + 1 + k = (i + k) + 1 by omega, List.getD_cons_succ]
    exact h2 k hk

theorem searchYearChars_spec (l : List Char) :
    (searchYearChars l = none ↔ ∀ i, ¬ fourDigitRunAt l i) ∧
    (∀ y, searchYearChars l = some y →
      ∃ i, fourDigitRunAt l i ∧ y = (l.drop i).take 4 ∧
        ∀ j, j < i → ¬ fourDigitRunAt l j) := by
  induction l with
  | nil =>
    constructor
    · simp only [searchYearChars, true_iff]
      intro i hi
      exact absurd hi.1 (by simp)
    · intro y h
      simp [searchYearChars] at h
  | cons a t ih =>
    cases h : fourDigitsHere (a :: t) with
    | some y0 =>
      have run0 : fourDigitRunAt (a :: t) 0 :=
        (fourDigitsHere_isSome_iff (a :: t)).1 (by simp [h])
      constructor
      · constructor
        · intro hnone
          simp [searchYearChars, h] at hnone
        · intro H
          exact absurd run0 (H 0)
      · intro y hy
        simp only [searchYearChars, h] at hy
        cases hy
        exact ⟨0, run0, by simpa using fourDigitsHere_eq_take _ _ h,
          fun j hj => absurd hj (Nat.not_lt_zero j)⟩
    | none =>
      have notrun0 : ¬ fourDigitRunAt (a :: t) 0 := by
        rw [← fourDigitsHere_isSome_iff]
        simp [h]
      have step : searchYearChars (a :: t) = searchYearChars t := by
        simp [searchYearChars, h]
      constructor
      · rw [step, ih.1]
        constructor
        · intro H i
          cases i with
          | zero => exact notrun0
          | succ n => rw [fourDigitRunAt_succ]; exact H n
        · intro H i
          have := H (i + 1)
          rwa [fourDigitRunAt_succ] at this
      · intro y hy
        rw [step] at hy
        obtain ⟨i, hrun, hval, hmin⟩ := ih.2 y hy
        refine ⟨i + 1, (fourDigitRunAt_succ a t i).2 hrun, by simpa using hval,
          fun j hj => ?_⟩
        cases j with
        | zero => exact notrun0
        | succ n => rw [fourDigitRunAt_succ]; exact hmin n (by omega)

/-- C10: the paginator's year classification is the leftmost run of four
consecutive decimal digits in the date string (`re.search(r'(\d{4})', ·)`):
a string classifies exactly when it contains four consecutive digits, and the
extracted year is the earliest such run, even inside a longer digit run. -/
theorem year_is_first_four_digit_run (s : String) :
    (searchYear s = none ↔ ∀ i, ¬ fourDigitRunAt s.data i) ∧
    (∀ y, searchYear s = some y →
      ∃ i, fourDigitRunAt s.data i ∧ y = ((s.data.drop i).take 4).asString ∧
        ∀ j, j < i → ¬ fourDigitRunAt s.data j) := by
  constructor
  · rw [searchYear, Option.map_eq_none']
    exact (searchYearChars_spec s.data).1
  · intro y hy
    rw [searchYear] at hy
    obtain ⟨l, hl, rfl⟩ := Option.map_eq_some'.1 hy
    obtain ⟨i, hrun, hval, hmin⟩ := (searchYearChars_spec s.data).2 l hl
    exact ⟨i, hrun, by rw [hval], hmin⟩

theorem year_is_first_four_digit_run_witness :
    searchYear "x123456" = some "1234" ∧
    (∃ i, fourDigitRunAt "x123456".data i ∧
      "1234" = (("x123456".data.drop i).take 4).asString ∧
      ∀ j, j < i → ¬ fourDigitRunAt "x123456".data j) :=
  ⟨by decide, (year_is_first_four_digit_run "x123456").2 "1234" (by decide)⟩

theorem foldl_classifyRow (page : List IFBProject) (acc : PageOutcome) :
    page.foldl classifyRow acc =
      ⟨acc.kept ++ targetRows page, acc.hasNon1404 || pageHasNon1404 page,
        acc.warned ++ unparseableDates page⟩ := by
  induction page generalizing acc with
  | nil => simp [targetRows, pageHasNon1404, unparseableDates]
  | cons p ps ih =>
    simp only [List.foldl_cons, ih]
    unfold classifyRow
    cases h : searchYear p.fund_collection_start_date with
    | none =>
      simp [targetRows, pageHasNon1404, unparseableDates, h]
    | some y =>
      by_cases hy : y = "1404"
      · subst hy
        simp [targetRows, pageHasNon1404, unparseableDates, h]
      · simp [targetRows, pageHasNon1404, unparseableDates, h, hy, Ne.symm hy]

theorem processPage_eq (page : List IFBProject) :
    processPage page =
      ⟨targetRows page, pageHasNon1404 page, unparseableDates page⟩ := by
  simpa using foldl_classifyRow page ⟨[], false, []⟩

/-- C1: the paginated traversal halts exactly on an empty page or on a page
with a classifiable non-`1404` row; a mixed page is still scanned in full
(all its `1404` rows are appended) before halting, and a page whose every
classifiable row is `1404` lets traversal proceed to the next page. -/
theorem scrape_stop_condition :
    (∀ rest, scrapeAllPages ([] :: rest) = []) ∧
    (∀ page rest, page ≠ [] → pageHasNon1404 page = true →
      scrapeAllPages (page :: rest) = targetRows page) ∧
    (∀ page rest, page ≠ [] → pageHasNon1404 page = false →
      scrapeAllPages (page :: rest) = targetRows page ++ scrapeAllPages rest) := by
  refine ⟨fun rest => by simp [scrapeAllPages], ?_, ?_⟩
  · intro page rest hne hstop
    simp [scrapeAllPages, List.isEmpty_iff, hne, processPage_eq, hstop]
  · intro page rest hne hgo
    simp [scrapeAllPages, List.isEmpty_iff, hne, processPage_eq, hgo]

theorem scrape_stop_condition_witness :
    scrapeAllPages
        [[sampleProj "a" "1404/01/05", sampleProj "b" "1403/11/02"],
          [sampleProj "c" "1404/02/01"]] =
      targetRows [sampleProj "a" "1404/01/05", sampleProj "b" "1403/11/02"] ∧
    scrapeAllPages [[sampleProj "c" "1404/02/01"], []] =
      targetRows [sampleProj "c" "1404/02/01"] ++ scrapeAllPages [[]] :=
  ⟨scrape_stop_condition.2.1 _ _ (by decide) (by decide),
    scrape_stop_condition.2.2 _ _ (by decide) (by decide)⟩

/-- C7: a row whose start date has no classifiable year is skipped with a
warning and counts toward neither outcome of the stop condition: it is not
appended and it does not set the halt flag (kept rows and the halt flag are
those of the page restricted to its classifiable rows). -/
theorem unparseable_row_skipped :
    (∀ page,
      (processPage page).kept =
        (processPage (page.filter fun p =>
          (searchYear p.fund_collection_start_date).isSome)).kept ∧
      (processPage page).hasNon1404 =
        (processPage (page.filter fun p =>
          (searchYear p.fund_collection_start_date).isSome)).hasNon1404) ∧
    (∀ page proj, proj ∈ page → searchYear proj.fund_collection_start_date = none →
      proj.fund_collection_start_date ∈ (processPage page).warned ∧
      proj ∉ (processPage page).kept) := by
  constructor
  · intro page
    rw [processPage_eq, processPage_eq]
    constructor
    · simp only [targetRows, List.filter_filter]
      congr 1
      funext p
      cases h : searchYear p.fund_collection_start_date <;> simp [h]
    · simp only [pageHasNon1404, List.any_filter]
      congr 1
      funext p
      cases h : searchYear p.fund_collection_start_date <;> simp [h]
  · intro page proj hmem hnone
    rw [processPage_eq]
    refine ⟨?_, ?_⟩
    · simp only [unparseableDates, List.mem_map]
      exact ⟨proj, List.mem_filter.2 ⟨hmem, by simp [hnone]⟩, rfl⟩
    · intro hk
      have := (List.mem_filter.1 hk).2
      simp [hnone] at this

theorem unparseable_row_skipped_witness :
    (sampleProj "x" "نامشخص").fund_collection_start_date ∈
      (processPage [sampleProj "a" "1404/01/05", sampleProj "x" "نامشخص"]).warned ∧
    sampleProj "x" "نامشخص" ∉
      (processPage [sampleProj "a" "1404/01/05", sampleProj "x" "نامشخص"]).kept :=
  unparseable_row_skipped.2 _ _ (by decide) (by decide)

theorem filter_new_rows_some (rows : List PyDict) (ks : List String)
    (h : ∀ r ∈ rows, (dictGet r "unique_key").isSome) :
    filter_new_rows rows ks =
      some (rows.filter fun r =>
        match dictGet r "unique_key" with
        | some (some s) => !ks.contains s
        | _ => true) := by
  induction rows with
  | nil => rfl
  | cons r rs ih =>
    obtain ⟨v, hv⟩ := Option.isSome_iff_exists.1 (h r (by simp))
    rw [filter_new_rows, hv, ih fun x hx => h x (by simp [hx])]
    cases v with
    | some s =>
      by_cases hc : ks.contains s <;> simp [List.filter_cons, hv, hc]
    | none => simp [List.filter_cons, hv]

/-- C2: both merge filters return exactly the candidates whose identity key
is absent from the existing-key set (`filter_new_rows` on content-digest
keys, `filter_new_projects` on outbound-URL keys), and on existing keys
`{k1,k2}` with candidates keyed `k1,k3,k4` exactly the `k3` and `k4` rows
survive. -/
theorem merge_filter_membership :
    (∀ rows ks, (∀ r ∈ rows, (dictGet r "unique_key").isSome) →
      ∃ out, filter_new_rows rows ks = some out ∧
        ∀ r, r ∈ out ↔ r ∈ rows ∧
          ∀ s, dictGet r "unique_key" = some (some s) → s ∉ ks) ∧
    (∀ projects links p,
      p ∈ filter_new_projects projects links ↔ p ∈ projects ∧
        ∀ u, dictGet p "detail_url" = some (some u) → u ∉ links) ∧
    filter_new_rows [rowK "k1", rowK "k3", rowK "k4"] ["k1", "k2"] =
      some [rowK "k3", rowK "k4"] := by
  refine ⟨?_, ?_, by decide⟩
  · intro rows ks h
    refine ⟨_, filter_new_rows_some rows ks h, fun r => ?_⟩
    rw [List.mem_filter]
    constructor
    · rintro ⟨hmem, hpred⟩
      refine ⟨hmem, fun s hs hks => ?_⟩
      rw [hs] at hpred
      exact absurd hks (by simpa using hpred)
    · rintro ⟨hmem, habs⟩
      refine ⟨hmem, ?_⟩
      cases hv : dictGet r "unique_key" with
      | none => simp
      | some v =>
        cases v with
        | none => simp
        | some s => simpa using habs s hv
  · intro projects links p
    rw [filter_new_projects, List.mem_filter]
    constructor
    · rintro ⟨hmem, hpred⟩
      refine ⟨hmem, fun u hu hlk => ?_⟩
      rw [hu] at hpred
      exact absurd hlk (by simpa using hpred)
    · rintro ⟨hmem, habs⟩
      refine ⟨hmem, ?_⟩
      cases hv : dictGet p "detail_url" with
      | none => simp
      | some v =>
        cases v with
        | none => simp
        | some u => simpa using habs u hv

theorem merge_filter_membership_witness :
    ∃ out, filter_new_rows [rowK "k1", rowK "k3", rowK "k4"] ["k1", "k2"] =
        some out ∧
      ∀ r, r ∈ out ↔ r ∈ [rowK "k1", rowK "k3", rowK "k4"] ∧
        ∀ s, dictGet r "unique_key" = some (some s) → s ∉ ["k1", "k2"] :=
  merge_filter_membership.1 _ _ (by decide)

theorem append_select_foldl (existing : List String) :
    ∀ (data : List PyDict) (acc : List PyDict × List PyDict),
      data.foldl (appendStep existing) acc =
        (acc.1 ++ data.filter
          (fun item => pidOf item != "" && !existing.contains (pidOf item)),
          acc.2 ++ data.filter (fun item => pidOf item == "")) := by
  intro data
  induction data with
  | nil => simp
  | cons item rest ih =>
    intro acc
    rw [List.foldl_cons]
    by_cases h0 : pidOf item = ""
    · rw [show appendStep existing acc item = (acc.1, acc.2 ++ [item]) by
        simp [appendStep, h0], ih]
      simp [List.filter_cons, h0]
    · by_cases h1 : pidOf item ∈ existing
      · rw [show appendStep existing acc item = acc by simp [appendStep, h0, h1], ih]
        simp [List.filter_cons, h0, h1]
      · rw [show appendStep existing acc item = (acc.1 ++ [item], acc.2) by
          simp [appendStep, h0, h1], ih]
        simp [List.filter_cons, h0, h1]

theorem append_new_rows_select_eq (data : List PyDict) (existing : List String) :
    append_new_rows_select data existing =
      (data.filter fun item => pidOf item != "" && !existing.contains (pidOf item),
        data.filter fun item => pidOf item == "") := by
  simpa [append_new_rows_select] using append_select_foldl existing data ([], [])

/-- C6 counterexample: a candidate lacking the field its identity key needs
is not excluded by the merge step. `filter_new_projects` silently retains a
row with no `detail_url` (passing it toward the append), and
`build_unique_key` on a row missing `company_name` fails (the uncaught
`KeyError` of the source, fatal to the run) instead of warning. -/
theorem keyless_candidate_counterexample :
    filter_new_projects [noUrlRow] ["k1"] = [noUrlRow] ∧
    build_unique_key noUrlRow = none := by
  constructor <;> rfl

/-- C6 amended: a candidate lacking its key field is not excluded by the
merge filters. The detail-url variant retains a row with no `detail_url`
(its `None` key is never in a set of strings); the content-hash variant's
`build_unique_key` succeeds exactly when all three key fields are present
(a missing one raises, fatally); only the sheet append excludes rows whose
id is missing or empty, with a warning, and a row whose id is Python `None`
is treated as having the literal id `"None"`. -/
theorem keyless_record_handling :
    (∀ projects links p, p ∈ projects → dictGet p "detail_url" = none →
      p ∈ filter_new_projects projects links) ∧
    (∀ r, (build_unique_key r).isSome ↔
      ((dictGet r "project_name").isSome ∧ (dictGet r "company_name").isSome ∧
        (dictGet r "fund_collection_start_date").isSome)) ∧
    (∀ data existing item, item ∈ data → pidOf item = "" →
      item ∉ (append_new_rows_select data existing).1 ∧
      item ∈ (append_new_rows_select data existing).2) ∧
    (∀ item, dictGet item "ifb_project_id" = some none → pidOf item = "None") := by
  refine ⟨?_, ?_, ?_, ?_⟩
  · intro projects links p hmem hurl
    exact List.mem_filter.2 ⟨hmem, by simp [hurl]⟩
  · intro r
    unfold build_unique_key
    cases dictGet r "project_name" <;>
      cases dictGet r "company_name" <;>
        cases dictGet r "fund_collection_start_date" <;> simp
  · intro data existing item hmem hpid
    rw [append_new_rows_select_eq]
    constructor
    · intro hk
      have := (List.mem_filter.1 hk).2
      simp [hpid] at this
    · exact List.mem_filter.2 ⟨hmem, by simp [hpid]⟩
  · intro item hid
    simp [pidOf, hid, pyStr]

theorem keyless_record_handling_witness :
    noUrlRow ∈ filter_new_projects [noUrlRow] ["k1"] ∧
    (noUrlRow ∉ (append_new_rows_select [noUrlRow] ["k1"]).1 ∧
      noUrlRow ∈ (append_new_rows_select [noUrlRow] ["k1"]).2) :=
  ⟨keyless_record_handling.1 [noUrlRow] ["k1"] noUrlRow (by decide) (by decide),
    keyless_record_handling.2.2.1 [noUrlRow] ["k1"] noUrlRow (by decide) (by decide)⟩

/-- C3 counterexample: the v7 dispatcher does not test the URL's host — it
lower-cases the whole URL and tests host substrings against it, so a URL
whose host is `example.com` but whose query mentions `hamafarin.ir`
dispatches to the hamafarin adapter, while host-based dispatch (the claim's
wording, `selectByHostV7`) selects the generic adapter. -/
theorem dispatcher_host_counterexample :
    selectStrategyV7 "https://example.com/?ref=hamafarin.ir" =
      StrategyV7.hamafarin ∧
    lowerStr (netlocOf "https://example.com/?ref=hamafarin.ir") =
      "example.com" ∧
    selectByHostV7 "https://example.com/?ref=hamafarin.ir" =
      StrategyV7.generic := by
  refine ⟨by decide, by decide, by decide⟩

/-- C3 amended: the main-variant dispatcher lower-cases the URL's host and
tests it against its fixed ordered host-substring table (first match wins,
generic fallback); the v7-variant dispatcher applies the same ordered test
to the lower-cased WHOLE URL rather than the host. Both selections are total
pure functions and return the generic adapter when no pattern matches. -/
theorem dispatcher_selection :
    (∀ url, selectStrategy url =
      firstMatchDispatch mainTable Strategy.generic (lowerStr (netlocOf url))) ∧
    (∀ url, selectStrategyV7 url =
      firstMatchDispatch v7Table StrategyV7.generic (lowerStr url)) ∧
    (∀ url, (∀ p ∈ (mainTable.map Prod.fst),
        strHasSub p (lowerStr (netlocOf url)) = false) →
      selectStrategy url = Strategy.generic) ∧
    (∀ url, (∀ p ∈ (v7Table.map Prod.fst),
        strHasSub p (lowerStr url) = false) →
      selectStrategyV7 url = StrategyV7.generic) := by
  refine ⟨fun url => rfl, fun url => rfl, ?_, ?_⟩
  · intro url h
    have h1 := h "hamafarin.ir" (by simp [mainTable])
    have h2 := h "fundocrowd.ir" (by simp [mainTable])
    have h3 := h "karencrowd.com" (by simp [mainTable])
    have h4 := h "ifund.ir" (by simp [mainTable])
    have h5 := h "zeema.fund" (by simp [mainTable])
    simp [selectStrategy, h1, h2, h3, h4, h5]
  · intro url h
    have h1 := h "hamafarin.ir" (by simp [v7Table])
    have h2 := h "fundocrowd.ir" (by simp [v7Table])
    have h3 := h "karencrowd.com" (by simp [v7Table])
    simp [selectStrategyV7, h1, h2, h3]

theorem dispatcher_selection_witness :
    selectStrategy "https://unknown-site.example/page" = Strategy.generic ∧
    selectStrategyV7 "https://unknown-site.example/page" = StrategyV7.generic :=
  ⟨dispatcher_selection.2.2.1 "https://unknown-site.example/page" (by decide),
    dispatcher_selection.2.2.2 "https://unknown-site.example/page" (by decide)⟩

theorem find?_first {α : Type} (p : α → Bool) (l1 : List α) (c : α)
    (l2 : List α) (h1 : ∀ x ∈ l1, p x = false) (hc : p c = true) :
    (l1 ++ c :: l2).find? p = some c := by
  induction l1 with
  | nil => simp [List.find?_cons, hc]
  | cons a t ih =>
    have ha := h1 a (by simp)
    simp only [List.cons_append, List.find?_cons, ha]
    exact ih fun x hx => h1 x (by simp [hx])

/-- C4 counterexample: the zeema adapter's card matching is not
bidirectional. With a single card titled `Alpha` and record title
`Alpha Project`, bidirectional substring containment holds (the card title
is contained in the record title), yet zeema matches no card and returns
the empty mapping. -/
theorem zeema_match_counterexample :
    bidirectionalMatch (pyStrip "Alpha") (pyStrip "Alpha Project") = true ∧
    List.find? (zeemaPred (pyStrip "Alpha Project")) [zeemaCardAlpha] = none ∧
    scrapeZeemaCards "Alpha Project" [zeemaCardAlpha] = [] := by
  refine ⟨by decide, by decide, by decide⟩

/-- C4 amended: the hamafarin-style card adapters match a card by
bidirectional substring containment of the stripped card title against the
record title, the first match in document order wins and yields exactly one
enrichment mapping (that card's extraction), and no match yields the empty
mapping; the zeema adapter has the same first-match/empty-on-no-match
shape but its test is one-directional (the unstripped card title must
contain the record title). -/
theorem adapter_card_matching :
    (∀ name cards l1 c l2, cards = l1 ++ c :: l2 →
      (∀ x ∈ l1, hamafarinPred (pyStrip name) x = false) →
      hamafarinPred (pyStrip name) c = true →
      scrapeHamafarinCards name cards = hamafarinExtract c) ∧
    (∀ name cards, (∀ x ∈ cards, hamafarinPred (pyStrip name) x = false) →
      scrapeHamafarinCards name cards = []) ∧
    (∀ name cards l1 c l2, cards = l1 ++ c :: l2 →
      (∀ x ∈ l1, zeemaPred (pyStrip name) x = false) →
      zeemaPred (pyStrip name) c = true →
      scrapeZeemaCards name cards = zeemaExtract c) ∧
    (∀ name cards, (∀ x ∈ cards, zeemaPred (pyStrip name) x = false) →
      scrapeZeemaCards name cards = []) ∧
    (∀ target t, hamafarinPred target (hCardTitled t) =
      bidirectionalMatch target (pyStrip t)) := by
  refine ⟨?_, ?_, ?_, ?_, fun target t => rfl⟩
  · intro name cards l1 c l2 hc h1 hp
    subst hc
    unfold scrapeHamafarinCards
    rw [find?_first _ l1 c l2 h1 hp]
  · intro name cards h
    unfold scrapeHamafarinCards
    rw [List.find?_eq_none.2 fun x hx => by simp [h x hx]]
  · intro name cards l1 c l2 hc h1 hp
    subst hc
    unfold scrapeZeemaCards
    rw [find?_first _ l1 c l2 h1 hp]
  · intro name cards h
    unfold scrapeZeemaCards
    rw [List.find?_eq_none.2 fun x hx => by simp [h x hx]]

theorem adapter_card_matching_witness :
    scrapeHamafarinCards "Alpha Project"
        [hCardTitled "Alpha Project", hCardTitled "Alpha Project Extended"] =
      hamafarinExtract (hCardTitled "Alpha Project") ∧
    scrapeZeemaCards "Alpha Project" [zeemaCardAlpha] = [] :=
  ⟨adapter_card_matching.1 "Alpha Project" _ [] (hCardTitled "Alpha Project")
      [hCardTitled "Alpha Project Extended"] rfl (by decide) (by decide),
    adapter_card_matching.2.2.2.1 "Alpha Project" [zeemaCardAlpha] (by decide)⟩

theorem entryOpt_mem {k : String} {v : Option String} {kv : String × String}
    (h : kv ∈ entryOpt k v) : kv.1 = k := by
  cases v with
  | none => simp [entryOpt] at h
  | some s =>
    simp [entryOpt] at h
    simp [h]

theorem hamafarinGridEntry_keys (it : Option String × Option String)
    (kv : String × String) (h : kv ∈ hamafarinGridEntry it) :
    kv.1 ∈ enrichKeys := by
  obtain ⟨l, v⟩ := it
  cases l with
  | none => simp [hamafarinGridEntry] at h
  | some rawLbl =>
    cases v with
    | none => simp [hamafarinGridEntry] at h
    | some rawVal =>
      simp only [hamafarinGridEntry] at h
      repeat' split at h
      all_goals simp at h
      all_goals (subst h; simp [enrichKeys])

theorem hamafarinExtract_keys (c : HamafarinCard) :
    ∀ kv ∈ hamafarinExtract c, kv.1 ∈ enrichKeys := by
  intro kv h
  unfold hamafarinExtract at h
  simp only [List.mem_append] at h
  rcases h with ((((h | h) | h) | h) | h) | h
  · rw [entryOpt_mem h]; simp [enrichKeys]
  · rw [entryOpt_mem h]; simp [enrichKeys]
  · rw [entryOpt_mem h]; simp [enrichKeys]
  · rw [entryOpt_mem h]; simp [enrichKeys]
  · rw [entryOpt_mem h]; simp [enrichKeys]
  · cases hcb : c.bottom with
    | none => rw [hcb] at h; simp at h
    | some b =>
      rw [hcb] at h
      simp only [List.mem_append] at h
      rcases h with (h | h) | h
      · rw [entryOpt_mem h]; simp [enrichKeys]
      · cases hpt : b.percText with
        | none => rw [hpt] at h; simp at h
        | some t =>
          rw [hpt] at h
          split at h
          · simp at h
            obtain ⟨-, h⟩ := h
            subst h
            simp [enrichKeys]
          · simp at h
      · cases hg : b.grid with
        | none => rw [hg] at h; simp at h
        | some items =>
          rw [hg] at h
          simp only [List.mem_flatten, List.mem_map] at h
          obtain ⟨l, ⟨it, hit, rfl⟩, hkv⟩ := h
          exact hamafarinGridEntry_keys it kv hkv

theorem fundocrowdExtract_keys (c : FundocrowdCard) :
    ∀ kv ∈ fundocrowdExtract c, kv.1 ∈ enrichKeys := by
  intro kv h
  unfold fundocrowdExtract at h
  simp only [List.mem_append] at h
  rcases h with (((((h | h) | h) | h) | h) | h) | h
  · rw [entryOpt_mem h]; simp [enrichKeys]
  · rw [entryOpt_mem h]; simp [enrichKeys]
  · rw [entryOpt_mem h]; simp [enrichKeys]
  · split at h
    · simp at h
      rcases h with h | h <;> (subst h; simp [enrichKeys])
    · simp at h
  · rw [entryOpt_mem h]; simp [enrichKeys]
  · cases hdc : c.durationCols with
    | none => rw [hdc] at h; simp at h
    | some cols =>
      rw [hdc] at h
      simp only [List.mem_append] at h
      rcases h with h | h <;> (rw [entryOpt_mem h]; simp [enrichKeys])
  · rw [entryOpt_mem h]; simp [enrichKeys]

theorem fundocrowdDetailsExtract_keys (c : FundocrowdCard) :
    ∀ kv ∈ fundocrowdDetailsExtract c, kv.1 ∈ enrichKeys := by
  intro kv h
  unfold fundocrowdDetailsExtract at h
  split at h
  · simp at h
  · rw [entryOpt_mem h]; simp [enrichKeys]

theorem karencrowdColEntry_keys (it : Option String × Option String)
    (kv : String × String) (h : kv ∈ karencrowdColEntry it) :
    kv.1 ∈ enrichKeys := by
  obtain ⟨l, v⟩ := it
  cases l with
  | none => simp [karencrowdColEntry] at h
  | some rawLbl =>
    cases v with
    | none => simp [karencrowdColEntry] at h
    | some rawVal =>
      simp only [karencrowdColEntry] at h
      repeat' split at h
      all_goals simp at h
      all_goals (subst h; simp [enrichKeys])

theorem karencrowdExtract_keys (c : KarencrowdCard) :
    ∀ kv ∈ karencrowdExtract c, kv.1 ∈ enrichKeys := by
  intro kv h
  unfold karencrowdExtract at h
  simp only [List.mem_append] at h
  rcases h with ((h | h) | h) | h
  · rw [entryOpt_mem h]; simp [enrichKeys]
  · rw [entryOpt_mem h]; simp [enrichKeys]
  · rw [entryOpt_mem h]; simp [enrichKeys]
  · cases hg : c.targetGrid with
    | none => rw [hg] at h; simp at h
    | some cols =>
      rw [hg] at h
      simp only [List.mem_flatten, List.mem_map] at h
      obtain ⟨l, ⟨it, hit, rfl⟩, hkv⟩ := h
      exact karencrowdColEntry_keys it kv hkv

theorem ifundItemEntry_keys (text : String) (kv : String × String)
    (h : kv ∈ ifundItemEntry text) : kv.1 ∈ enrichKeys := by
  simp only [ifundItemEntry] at h
  repeat' split at h
  all_goals simp at h
  all_goals (subst h; simp [enrichKeys])

theorem ifundExtract_keys (c : IfundCard) :
    ∀ kv ∈ ifundExtract c, kv.1 ∈ enrichKeys := by
  intro kv h
  unfold ifundExtract at h
  simp only [List.mem_append] at h
  rcases h with (((h | h) | h) | h) | h
  · rw [entryOpt_mem h]; simp [enrichKeys]
  · rw [entryOpt_mem h]; simp [enrichKeys]
  · rw [entryOpt_mem h]; simp [enrichKeys]
  · split at h
    · simp at h
      rcases h with h | h <;> (subst h; simp [enrichKeys])
    · simp at h
  · simp only [List.mem_flatten, List.mem_map] at h
    obtain ⟨l, ⟨it, hit, rfl⟩, hkv⟩ := h
    exact ifundItemEntry_keys it kv hkv

theorem zeemaReqEntry_keys (spans : List String) (kv : String × String)
    (h : kv ∈ zeemaReqEntry spans) : kv.1 ∈ enrichKeys := by
  simp only [zeemaReqEntry] at h
  repeat' split at h
  all_goals simp at h
  all_goals (subst h; simp [enrichKeys])

theorem zeemaExtract_keys (c : ZeemaCard) :
    ∀ kv ∈ zeemaExtract c, kv.1 ∈ enrichKeys := by
  intro kv h
  unfold zeemaExtract at h
  simp only [List.mem_append] at h
  rcases h with ((((((((h | h) | h) | h) | h) | h) | h) | h) | h) | h
  · rw [entryOpt_mem h]; simp [enrichKeys]
  · rw [entryOpt_mem h]; simp [enrichKeys]
  · rw [entryOpt_mem h]; simp [enrichKeys]
  · simp only [List.mem_flatten, List.mem_map] at h
    obtain ⟨l, ⟨it, hit, rfl⟩, hkv⟩ := h
    exact zeemaReqEntry_keys it kv hkv
  · rw [entryOpt_mem h]; simp [enrichKeys]
  · rw [entryOpt_mem h]; simp [enrichKeys]
  · rw [entryOpt_mem h]; simp [enrichKeys]
  · rw [entryOpt_mem h]; simp [enrichKeys]
  · rw [entryOpt_mem h]; simp [enrichKeys]
  · rw [entryOpt_mem h]; simp [enrichKeys]

theorem genericExtract_keys (g : GenericMatches) (url : String) :
    ∀ kv ∈ genericExtract g url, kv.1 ∈ enrichKeys := by
  intro kv h
  unfold genericExtract at h
  simp only [List.mem_append] at h
  rcases h with ((((h | h) | h) | h) | h) | h
  · rw [entryOpt_mem h]; simp [enrichKeys]
  · rw [entryOpt_mem h]; simp [enrichKeys]
  · rw [entryOpt_mem h]; simp [enrichKeys]
  · rw [entryOpt_mem h]; simp [enrichKeys]
  · rw [entryOpt_mem h]; simp [enrichKeys]
  · simp at h; subst h; simp [enrichKeys]

theorem genericExtractV7_keys (g : GenericMatches) :
    ∀ kv ∈ genericExtractV7 g, kv.1 ∈ enrichKeys := by
  intro kv h
  unfold genericExtractV7 at h
  simp only [List.mem_append] at h
  rcases h with (((h | h) | h) | h) | h
  all_goals (rw [entryOpt_mem h]; simp [enrichKeys])

theorem adapterOutput_keys (d : List (String × String))
    (hd : AdapterOutput d) : ∀ kv ∈ d, kv.1 ∈ enrichKeys := by
  rcases hd with ⟨n, cs, rfl⟩ | ⟨n, cs, rfl⟩ | ⟨n, cs, rfl⟩ | ⟨n, cs, rfl⟩ |
    ⟨n, cs, rfl⟩ | ⟨g, url, rfl⟩ | ⟨g, rfl⟩ | rfl
  · intro kv h
    unfold scrapeHamafarinCards at h
    split at h
    · exact hamafarinExtract_keys _ kv h
    · simp at h
  · intro kv h
    unfold scrapeFundocrowdCards at h
    split at h
    · dsimp only [] at h
      split at h
      · simp only [List.mem_append] at h
        rcases h with h | h
        · exact fundocrowdExtract_keys _ kv h
        · exact fundocrowdDetailsExtract_keys _ kv h
      · exact fundocrowdExtract_keys _ kv h
    · simp at h
  · intro kv h
    unfold scrapeKarencrowdCards at h
    split at h
    · exact karencrowdExtract_keys _ kv h
    · simp at h
  · intro kv h
    unfold scrapeIfundCards at h
    split at h
    · exact ifundExtract_keys _ kv h
    · simp at h
  · intro kv h
    unfold scrapeZeemaCards at h
    split at h
    · exact zeemaExtract_keys _ kv h
    · simp at h
  · exact genericExtract_keys g url
  · exact genericExtractV7_keys g
  · simp

theorem lookupLast_eq_none_iff (m : List (String × String)) (k : String) :
    lookupLast m k = none ↔ ∀ kv ∈ m, kv.1 ≠ k := by
  simp [lookupLast, List.find?_eq_none]

/-- C5: enrichment is additive only — for every listing record and every
mapping an adapter can produce, reading any of the eleven listing-populated
fields after `combined.update(details)` gives the original listing value:
adapters only ever assign keys disjoint from the listing field names. -/
theorem enrichment_additive (p : IFBProject) (d : List (String × String))
    (hd : AdapterOutput d) :
    ∀ k ∈ listingKeys,
      mergeUpdate (projToDict p) d k = dictGet (projToDict p) k := by
  intro k hk
  have hkeys := adapterOutput_keys d hd
  have hnone : lookupLast d k = none := by
    rw [lookupLast_eq_none_iff]
    intro kv hkv hke
    have h1 := hkeys kv hkv
    rw [hke] at h1
    have hdisj : ∀ x ∈ enrichKeys, x ∉ listingKeys := by decide
    exact hdisj k h1 hk
  simp [mergeUpdate, hnone]

theorem enrichment_additive_witness :
    mergeUpdate (projToDict (sampleProj "T" "1404/01/01"))
        (scrapeHamafarinCards "T" [hCardTitled "T"]) "project_name" =
      dictGet (projToDict (sampleProj "T" "1404/01/01")) "project_name" :=
  enrichment_additive (sampleProj "T" "1404/01/01")
    (scrapeHamafarinCards "T" [hCardTitled "T"])
    (Or.inl ⟨"T", [hCardTitled "T"], rfl⟩) "project_name" (by decide)

theorem extractRows_foldl (now : String) (descOf : String → String) :
    ∀ (rows : List (List TCell)) (acc : List IFBProject × Nat),
      rows.foldl (extractStep now descOf) acc =
        (acc.1 ++ rows.filterMap (rowOk now descOf),
          acc.2 + (rows.filter fun cells =>
            processRow now descOf cells == RowResult.errored).length) := by
  intro rows
  induction rows with
  | nil => simp
  | cons cells rest ih =>
    intro acc
    rw [List.foldl_cons]
    cases hp : processRow now descOf cells with
    | ok p =>
      rw [show extractStep now descOf acc cells = (acc.1 ++ [p], acc.2) by
        simp [extractStep, hp], ih]
      simp [List.filterMap_cons, List.filter_cons, rowOk, hp]
    | errored =>
      rw [show extractStep now descOf acc cells = (acc.1, acc.2 + 1) by
        simp [extractStep, hp], ih]
      simp [List.filterMap_cons, List.filter_cons, rowOk, hp]
      omega
    | short =>
      rw [show extractStep now descOf acc cells = acc by
        simp [extractStep, hp], ih]
      simp [List.filterMap_cons, List.filter_cons, rowOk, hp]

theorem extractRowsAcc_eq (now : String) (descOf : String → String)
    (rows : List (List TCell)) :
    extractRowsAcc now descOf rows =
      (rows.filterMap (rowOk now descOf),
        (rows.filter fun cells =>
          processRow now descOf cells == RowResult.errored).length) := by
  simpa [extractRowsAcc] using extractRows_foldl now descOf rows ([], 0)

/-- C8 counterexample: a 3-cell data row is skipped WITHOUT a logged
error — the `if len(cells) >= 10` guard has no `else` branch, so the page
yields no record and no row-level error log entry. -/
theorem short_row_counterexample :
    shortRow.length < 10 ∧
    extractRowsAcc "t" (fun _ => "d") [shortRow] = ([], 0) := by
  exact ⟨by decide, rfl⟩

/-- C8 amended: a data row with fewer than 10 cells is skipped silently
(neither a record nor a logged error, and extraction of the remaining rows
continues unchanged); the logged-error path belongs to rows that raise
during processing (a platform anchor without `href`), which are likewise
skipped with extraction continuing. -/
theorem short_row_skipped :
    (∀ now descOf cells, cells.length < 10 →
      processRow now descOf cells = RowResult.short) ∧
    (∀ now descOf rows1 cells rows2,
      processRow now descOf cells = RowResult.short →
      extractRowsAcc now descOf (rows1 ++ cells :: rows2) =
        extractRowsAcc now descOf (rows1 ++ rows2)) ∧
    (∀ now descOf cells a, 10 ≤ cells.length →
      (cells.getD 4 defaultCell).anchor = some a → a.href = none →
      processRow now descOf cells = RowResult.errored) ∧
    (∀ now descOf rows1 cells rows2,
      processRow now descOf cells = RowResult.errored →
      (extractRowsAcc now descOf (rows1 ++ cells :: rows2)).1 =
        (extractRowsAcc now descOf (rows1 ++ rows2)).1 ∧
      (extractRowsAcc now descOf (rows1 ++ cells :: rows2)).2 =
        (extractRowsAcc now descOf (rows1 ++ rows2)).2 + 1) := by
  refine ⟨?_, ?_, ?_, ?_⟩
  · intro now descOf cells h
    unfold processRow
    rw [if_neg (by omega)]
  · intro now descOf rows1 cells rows2 h
    rw [extractRowsAcc_eq, extractRowsAcc_eq]
    simp [List.filterMap_append, List.filter_append, List.filterMap_cons,
      List.filter_cons, rowOk, h]
  · intro now descOf cells a hlen ha hh
    unfold processRow
    rw [if_pos hlen, ha]
    simp [hh]
  · intro now descOf rows1 cells rows2 h
    rw [extractRowsAcc_eq, extractRowsAcc_eq]
    constructor
    · simp [List.filterMap_append, List.filterMap_cons, rowOk, h]
    · simp [List.filter_append, List.filter_cons, h]
      omega

theorem short_row_skipped_witness :
    processRow "t" (fun _ => "d") shortRow = RowResult.short ∧
    extractRowsAcc "t" (fun _ => "d") ([] ++ shortRow :: [badAnchorRow]) =
      extractRowsAcc "t" (fun _ => "d") ([] ++ [badAnchorRow]) ∧
    processRow "t" (fun _ => "d") badAnchorRow = RowResult.errored ∧
    (extractRowsAcc "t" (fun _ => "d") ([] ++ badAnchorRow :: [])).2 =
      (extractRowsAcc "t" (fun _ => "d") ([] ++ [])).2 + 1 :=
  ⟨short_row_skipped.1 "t" _ shortRow (by decide),
    short_row_skipped.2.1 "t" _ [] shortRow [badAnchorRow]
      (short_row_skipped.1 "t" _ shortRow (by decide)),
    short_row_skipped.2.2.1 "t" _ badAnchorRow ⟨none, none⟩ (by decide)
      (by decide) (by decide),
    (short_row_skipped.2.2.2 "t" _ [] badAnchorRow []
      (short_row_skipped.2.2.1 "t" _ badAnchorRow ⟨none, none⟩ (by decide)
        (by decide) (by decide))).2⟩

/-- C9 counterexample: in the `sheets.py` variant the repository
constructor runs `client.open_by_key(spreadsheet_id).sheet1`, which raises
`SpreadsheetNotFound` when the target spreadsheet does not exist — the key
read-back is never reached, instead of yielding the empty set. (The
`main.py` reader does yield the empty set.) -/
theorem missing_store_counterexample :
    openByKey [] "sheet-id" = Except.error "SpreadsheetNotFound" ∧
    get_existing_ids [] "Crowdfunding_Projects_1404" = [] :=
  ⟨rfl, rfl⟩

/-- C9 amended: when the target spreadsheet does not exist, the `main.py`
reader (`get_existing_ids`) catches the error and returns the empty key
set, so its merge treats all candidates as new (filtering against the
empty set keeps every candidate); the `sheets.py` repository instead fails
in its constructor (`open_by_key` raises), so its read-back never runs. -/
theorem missing_store_handling :
    (∀ bk name, lookupSheet bk name = none → get_existing_ids bk name = []) ∧
    (∀ bk key, lookupSheet bk key = none →
      openByKey bk key = Except.error "SpreadsheetNotFound") ∧
    (∀ rows, filter_new_projects rows [] = rows) := by
  refine ⟨?_, ?_, ?_⟩
  · intro bk name h
    unfold get_existing_ids
    rw [h]
  · intro bk key h
    unfold openByKey
    rw [h]
  · intro rows
    unfold filter_new_projects
    rw [List.filter_eq_self]
    intro p _
    cases hv : dictGet p "detail_url" with
    | none => simp
    | some v => cases v <;> simp

theorem missing_store_handling_witness :
    get_existing_ids [] "Crowdfunding_Projects_1404" = [] ∧
    openByKey [] "abc123" = Except.error "SpreadsheetNotFound" ∧
    filter_new_projects [noUrlRow] [] = [noUrlRow] :=
  ⟨missing_store_handling.1 [] "Crowdfunding_Projects_1404" rfl,
    missing_store_handling.2.1 [] "abc123" rfl,
    missing_store_handling.2.2 [noUrlRow]⟩
